import Mathlib

/-!
Verification development for the shared-notes application (`src/app.py`).

The application stores notes and share tokens in two SQLite tables and
exposes, through its Streamlit UI, the operations `save_note`, `get_note`,
`create_token` (gated by a 3-token cap in the editor button handler),
`get_tokens_for_note`, and a viewer branch that authorizes reads by token.

Shallow embedding choices:
* the SQLite database is a `DB` record holding the two tables as lists of
  rows in rowid (insertion) order — a plain `SELECT ... WHERE` in SQLite
  returns rows in that order;
* `time.time()` is modelled as a `Nat` timestamp passed explicitly to each
  writing operation; the wall clock is non-decreasing, which the reachability
  relation records as `lastTime ≤ now`;
* `str(uuid.uuid4())` is modelled by `uuid4_chars`, which renders a random
  128-bit draw `r` in the canonical 8-4-4-4-12 lowercase-hex format with the
  version/variant nibbles fixed as in RFC 4122; Python's slice `[:8]` is
  `List.take 8` on the character list;
* an `INSERT` that violates the `token` PRIMARY KEY raises in Python; this is
  the `.error .duplicateToken` outcome, leaving the database unchanged.
-/

/-- A row of the `notes` table (`id TEXT PRIMARY KEY, title, content, updated_at`). -/
structure NoteRow where
  id : String
  title : String
  content : String
  updated_at : Nat
deriving Repr, DecidableEq

/-- A row of the `tokens` table (`token TEXT PRIMARY KEY, note_id, created_at`). -/
structure TokenRow where
  token : String
  note_id : String
  created_at : Nat
deriving Repr, DecidableEq

/-- The SQLite database: both tables, in rowid (insertion) order, plus the
last wall-clock value handed out (used to state clock monotonicity). -/
structure DB where
  notes : List NoteRow
  tokens : List TokenRow
  lastTime : Nat
deriving Repr, DecidableEq

/-- The freshly initialised database of `init_db`: both tables empty. -/
def dbInit : DB := ⟨[], [], 0⟩

/-- Lowercase hexadecimal digit, as produced by Python's uuid formatting. -/
def hexDigit (n : Nat) : Char :=
  if n < 10 then Char.ofNat (48 + n) else Char.ofNat (87 + n)

/-- Fixed-width big-endian lowercase-hex rendering of `n` on `k` digits. -/
def natToHexFixed : Nat → Nat → List Char
  | 0, _ => []
  | k + 1, n => natToHexFixed k (n / 16) ++ [hexDigit (n % 16)]

/-- The character list of `str(uuid.uuid4())` for the 128-bit random draw `r`:
canonical 8-4-4-4-12 grouping, version nibble `4`, variant bits `10`. -/
def uuid4_chars (r : Nat) : List Char :=
  let u := r % 2 ^ 128
  natToHexFixed 8 (u / 2 ^ 96)
    ++ '-' :: natToHexFixed 4 (u / 2 ^ 80 % 2 ^ 16)
    ++ '-' :: natToHexFixed 4 (2 ^ 14 + u / 2 ^ 68 % 2 ^ 12)
    ++ '-' :: natToHexFixed 4 (2 ^ 15 + u / 2 ^ 48 % 2 ^ 14)
    ++ '-' :: natToHexFixed 12 (u % 2 ^ 48)

/-- `str(uuid.uuid4())[:8]` — the token string of `create_token`. -/
def new_token (r : Nat) : String := String.mk ((uuid4_chars r).take 8)

/-- `save_note(note_id, title, content)`: `INSERT OR REPLACE` keyed on `id`.
SQLite deletes any conflicting row and appends the new row with a fresh
rowid, so in list form: drop rows with this id, append the new row. -/
def save_note (s : DB) (note_id title content : String) (now : Nat) : DB :=
  { s with
    notes := s.notes.filter (fun n => n.id != note_id) ++
      [⟨note_id, title, content, now⟩]
    lastTime := now }

/-- `get_note(note_id)`: `SELECT ... WHERE id = ?` then `fetchone()` —
the first row with this id, or `None`. -/
def get_note (s : DB) (note_id : String) : Option NoteRow :=
  s.notes.find? (fun n => n.id == note_id)

/-- `get_tokens_for_note(note_id)`: `SELECT token, created_at FROM tokens
WHERE note_id = ?` then `fetchall()` — all matching rows in rowid order. -/
def get_tokens_for_note (s : DB) (note_id : String) : List (String × Nat) :=
  (s.tokens.filter (fun t => t.note_id == note_id)).map
    (fun t => (t.token, t.created_at))

/-- `note_exists(note_id)`. -/
def note_exists (s : DB) (note_id : String) : Bool :=
  (get_note s note_id).isSome

/-- Failure outcomes of token creation: the PRIMARY KEY violation raised by
the bare `INSERT`, and the cap refusal of the editor button handler. -/
inductive CreateErr where
  | duplicateToken
  | capExceeded
deriving Repr, DecidableEq

/-- `create_token(note_id)`: draw a token, `INSERT` it. A PRIMARY KEY
collision raises (database unchanged); otherwise the row is appended. -/
def create_token (s : DB) (note_id : String) (now r : Nat) :
    Except CreateErr String × DB :=
  let t := new_token r
  if s.tokens.any (fun row => row.token == t) then
    (.error .duplicateToken, s)
  else
    (.ok t,
      { s with tokens := s.tokens ++ [⟨t, note_id, now⟩], lastTime := now })

/-- The editor's share-token button handler (app.py lines 120–126): count
the note's tokens; refuse when already at 3, else call `create_token`. -/
def create_token_capped (s : DB) (note_id : String) (now r : Nat) :
    Except CreateErr String × DB :=
  let existing := get_tokens_for_note s note_id
  if 3 ≤ existing.length then (.error .capExceeded, s)
  else create_token s note_id now r

/-- Python membership test `token_q in tokens` where `token_q` is the
optional `token` query parameter (`None` when absent, and `None` is never
an element of a list of strings). -/
def presented_in (p : Option String) (ts : List String) : Bool :=
  match p with
  | some t => ts.contains t
  | none => false

/-- The viewer's authorization predicate (app.py lines 84–86): access is
granted unless `tokens and token_q not in tokens`. -/
def is_authorized (s : DB) (note_id : String) (p : Option String) : Bool :=
  let tokens := (get_tokens_for_note s note_id).map Prod.fst
  tokens.isEmpty || presented_in p tokens

/-- The two rejection outcomes of the viewer branch. -/
inductive Rejection where
  | noteNotFound
  | unauthorized
deriving Repr, DecidableEq

/-- The error message the viewer renders for each rejection
(app.py lines 81 and 86). -/
def rejection_message : Rejection → String
  | .noteNotFound => "Note not found."
  | .unauthorized =>
      "Invalid or missing token. You need a valid token to view this note."

/-- The read-only snapshot shown to an authorized viewer. -/
structure Snapshot where
  title : String
  content : String
  updated_at : Nat
deriving Repr, DecidableEq

/-- The viewer branch (app.py lines 79–94): look the note up, check the
token gate, and render title, content and timestamp of the stored row. -/
def view_note (s : DB) (note_id : String) (token_q : Option String) :
    Except Rejection Snapshot :=
  match get_note s note_id with
  | none => .error .noteNotFound
  | some note =>
      let tokens := (get_tokens_for_note s note_id).map Prod.fst
      if !tokens.isEmpty && !presented_in token_q tokens then
        .error .unauthorized
      else
        .ok ⟨note.title, note.content, note.updated_at⟩

/-- Database states reachable through the application's write operations,
starting from the freshly initialised store. Each write reads the wall
clock, which never runs backwards (`lastTime ≤ now`). -/
inductive Reachable : DB → Prop where
  | init : Reachable dbInit
  | save {s : DB} (id title content : String) {now : Nat} :
      Reachable s → s.lastTime ≤ now →
      Reachable (save_note s id title content now)
  | tok {s : DB} (note_id : String) {now r : Nat} :
      Reachable s → s.lastTime ≤ now →
      Reachable (create_token_capped s note_id now r).2

instance {ε α : Type} [DecidableEq ε] [DecidableEq α] :
    DecidableEq (Except ε α) := fun a b =>
  match a, b with
  | .error x, .error y =>
      if h : x = y then .isTrue (by subst h; rfl)
      else .isFalse (by intro hc; cases hc; exact h rfl)
  | .error _, .ok _ => .isFalse (by intro hc; cases hc)
  | .ok _, .error _ => .isFalse (by intro hc; cases hc)
  | .ok x, .ok y =>
      if h : x = y then .isTrue (by subst h; rfl)
      else .isFalse (by intro hc; cases hc; exact h rfl)

/-- A concrete run: save note `"n1"`, then issue one share token for it
(the draw `r = 0` yields the token `"00000000"` at time 2). -/
def dbDemo : DB :=
  (create_token_capped (save_note dbInit "n1" "Plan" "Draft v1" 1) "n1" 2 0).2

/-- Two tokens issued (`r = 2 ^ 96` yields `"00000001"`). -/
def dbT2 : DB := (create_token_capped dbDemo "n1" 3 (2 ^ 96)).2

/-- Three tokens issued (`r = 2 * 2 ^ 96` yields `"00000002"`): the cap. -/
def dbThree : DB := (create_token_capped dbT2 "n1" 4 (2 * 2 ^ 96)).2

/-- A token issued for a note id that was never saved: an orphaned token. -/
def dbOrphan : DB := (create_token_capped dbInit "ghost" 1 0).2

/-! ### Basic facts about the embedded operations -/

theorem natToHexFixed_length (k n : Nat) : (natToHexFixed k n).length = k := by
  induction k generalizing n with
  | zero => rfl
  | succ k ih => simp [natToHexFixed, ih]

theorem uuid4_chars_length (r : Nat) : (uuid4_chars r).length = 36 := by
  simp [uuid4_chars, natToHexFixed_length]

theorem new_token_length (r : Nat) : (new_token r).length = 8 := by
  simp [new_token, String.length, List.length_take, uuid4_chars_length]

/-- The invariant maintained by every application write: all stored tokens
are 8 characters long, all stored timestamps are bounded by the clock,
note ids are unique, and the tokens table is sorted by creation time. -/
theorem reachable_inv {s : DB} (h : Reachable s) :
    (∀ row ∈ s.tokens, row.token.length = 8 ∧ row.created_at ≤ s.lastTime) ∧
    (∀ n ∈ s.notes, n.updated_at ≤ s.lastTime) ∧
    s.notes.Pairwise (fun a b => a.id ≠ b.id) ∧
    s.tokens.Pairwise (fun a b => a.created_at ≤ b.created_at) := by
  induction h with
  | init =>
      refine ⟨?_, ?_, ?_, ?_⟩ <;> simp [dbInit]
  | @save s id title content now hs hle ih =>
      obtain ⟨htok, hnotes, hids, hsorted⟩ := ih
      refine ⟨?_, ?_, ?_, ?_⟩
      · intro row hrow
        simp only [save_note] at hrow ⊢
        exact ⟨(htok row hrow).1, le_trans (htok row hrow).2 hle⟩
      · intro n hn
        simp only [save_note, List.mem_append, List.mem_filter,
          List.mem_singleton] at hn ⊢
        rcases hn with ⟨hn, _⟩ | rfl
        · exact le_trans (hnotes n hn) hle
        · exact le_refl now
      · simp only [save_note, List.pairwise_append]
        refine ⟨hids.filter _, List.pairwise_singleton _ _, ?_⟩
        intro a ha b hb
        simp only [List.mem_filter, bne_iff_ne, ne_eq] at ha
        simp only [List.mem_singleton] at hb
        subst hb
        exact ha.2
      · simpa only [save_note] using hsorted
  | @tok s note_id now r hs hle ih =>
      obtain ⟨htok, hnotes, hids, hsorted⟩ := ih
      by_cases hcap : 3 ≤ (get_tokens_for_note s note_id).length
      · simpa only [create_token_capped, if_pos hcap] using
          ⟨htok, hnotes, hids, hsorted⟩
      · by_cases hdup : (s.tokens.any fun row => row.token == new_token r) = true
        · simpa only [create_token_capped, if_neg hcap, create_token,
            if_pos hdup] using ⟨htok, hnotes, hids, hsorted⟩
        · simp only [create_token_capped, if_neg hcap, create_token,
            if_neg hdup]
          refine ⟨?_, ?_, ?_, ?_⟩
          · intro row hrow
            simp only [List.mem_append, List.mem_singleton] at hrow
            rcases hrow with hrow | rfl
            · exact ⟨(htok row hrow).1, le_trans (htok row hrow).2 hle⟩
            · exact ⟨new_token_length r, le_refl now⟩
          · intro n hn
            exact le_trans (hnotes n hn) hle
          · exact hids
          · rw [List.pairwise_append]
            refine ⟨hsorted, List.pairwise_singleton _ _, ?_⟩
            intro a ha b hb
            simp only [List.mem_singleton] at hb
            subst hb
            exact le_trans (htok a ha).2 hle

theorem find_filter_append (l : List NoteRow) (row : NoteRow) (id : String)
    (h : row.id = id) :
    ((l.filter fun n => n.id != id) ++ [row]).find? (fun n => n.id == id) =
      some row := by
  induction l with
  | nil => simp [List.find?, h]
  | cons hd tl ih =>
      by_cases hh : hd.id = id
      · simpa [List.filter_cons, hh] using ih
      · simp [List.filter_cons, hh, List.find?, ih]

theorem get_note_save (s : DB) (note_id title content : String) (now : Nat) :
    get_note (save_note s note_id title content now) note_id =
      some ⟨note_id, title, content, now⟩ := by
  simp only [get_note, save_note]
  exact find_filter_append s.notes _ note_id rfl

theorem create_token_capped_full {s : DB} {note_id : String} {now r : Nat}
    (h : 3 ≤ (get_tokens_for_note s note_id).length) :
    create_token_capped s note_id now r = (.error .capExceeded, s) := by
  simp [create_token_capped, if_pos h]

theorem create_token_capped_ok {s s' : DB} {note_id t : String} {now r : Nat}
    (h : create_token_capped s note_id now r = (.ok t, s')) :
    t = new_token r ∧
      s' = { s with tokens := s.tokens ++ [⟨t, note_id, now⟩], lastTime := now } := by
  simp only [create_token_capped, create_token] at h
  split at h
  · exact absurd h (by simp)
  · split at h
    · exact absurd h (by simp)
    · injection h with h1 h2
      injection h1 with h1
      subst h1
      exact ⟨rfl, h2.symm⟩

theorem get_tokens_capped_ok {s s' : DB} {note_id t : String} {now r : Nat}
    (h : create_token_capped s note_id now r = (.ok t, s')) :
    get_tokens_for_note s' note_id = get_tokens_for_note s note_id ++ [(t, now)] := by
  obtain ⟨-, rfl⟩ := create_token_capped_ok h
  simp [get_tokens_for_note, List.filter_append]

theorem view_gate (s : DB) (note_id : String) (p : Option String) :
    (!((get_tokens_for_note s note_id).map Prod.fst).isEmpty &&
      !presented_in p ((get_tokens_for_note s note_id).map Prod.fst)) =
      !is_authorized s note_id p := by
  simp [is_authorized]

theorem dbDemo_reachable : Reachable dbDemo :=
  Reachable.tok "n1"
    (Reachable.save "n1" "Plan" "Draft v1" Reachable.init (by decide))
    (by decide)

/-! ### The claims -/

/-- C1: a `CreateToken` call (cap check plus insert, as the editor's
share-token button performs it) on a note that already has 3 tokens returns
`CapExceeded` without inserting, leaving `ListTokens` at exactly 3 entries;
and after 3 successful calls starting from a token-less note, a 4th call
returns `CapExceeded`. -/
theorem claim_C1_cap_enforced :
    (∀ (s : DB) (note_id : String) (now r : Nat),
      (get_tokens_for_note s note_id).length = 3 →
        create_token_capped s note_id now r = (.error .capExceeded, s) ∧
        (get_tokens_for_note (create_token_capped s note_id now r).2
          note_id).length = 3) ∧
    (∀ (s : DB) (note_id t₁ t₂ t₃ : String) (s₁ s₂ s₃ : DB)
        (n₁ r₁ n₂ r₂ n₃ r₃ n₄ r₄ : Nat),
      get_tokens_for_note s note_id = [] →
      create_token_capped s note_id n₁ r₁ = (.ok t₁, s₁) →
      create_token_capped s₁ note_id n₂ r₂ = (.ok t₂, s₂) →
      create_token_capped s₂ note_id n₃ r₃ = (.ok t₃, s₃) →
        (get_tokens_for_note s₃ note_id).length = 3 ∧
        (create_token_capped s₃ note_id n₄ r₄).1 = .error .capExceeded) := by
  constructor
  · intro s note_id now r h
    have heq := @create_token_capped_full s note_id now r (by omega)
    refine ⟨heq, ?_⟩
    rw [heq]
    exact h
  · intro s note_id t₁ t₂ t₃ s₁ s₂ s₃ n₁ r₁ n₂ r₂ n₃ r₃ n₄ r₄ h0 h1 h2 h3
    have e1 := get_tokens_capped_ok h1
    have e2 := get_tokens_capped_ok h2
    have e3 := get_tokens_capped_ok h3
    have hlen : (get_tokens_for_note s₃ note_id).length = 3 := by
      rw [e3, e2, e1, h0]
      rfl
    refine ⟨hlen, ?_⟩
    rw [@create_token_capped_full s₃ note_id n₄ r₄ (by omega)]

theorem claim_C1_cap_enforced_witness :
    (create_token_capped dbThree "n1" 9 9 = (.error .capExceeded, dbThree) ∧
      (get_tokens_for_note (create_token_capped dbThree "n1" 9 9).2
        "n1").length = 3) ∧
    ((get_tokens_for_note dbThree "n1").length = 3 ∧
      (create_token_capped dbThree "n1" 9 9).1 = .error .capExceeded) :=
  ⟨claim_C1_cap_enforced.1 dbThree "n1" 9 9 (by decide),
   claim_C1_cap_enforced.2 (save_note dbInit "n1" "Plan" "Draft v1" 1) "n1"
     "00000000" "00000001" "00000002" dbDemo dbT2 dbThree
     2 0 3 (2 ^ 96) 4 (2 * 2 ^ 96) 9 9
     (by decide) (by decide) (by decide) (by decide)⟩

/-- C8: token creation never creates or modifies any note record: the
notes table is unchanged by `create_token` (bare insert) and by the capped
handler, and `get_note` answers exactly as before, in particular still
signalling absence for a note that does not exist. -/
theorem claim_C8_token_frame (s : DB) (note_id : String) (now r : Nat) :
    ((create_token_capped s note_id now r).2).notes = s.notes ∧
    ((create_token s note_id now r).2).notes = s.notes ∧
    ∀ id, get_note (create_token_capped s note_id now r).2 id =
      get_note s id := by
  have h1 : ((create_token s note_id now r).2).notes = s.notes := by
    simp only [create_token]
    split <;> rfl
  have h2 : ((create_token_capped s note_id now r).2).notes = s.notes := by
    simp only [create_token_capped]
    split
    · rfl
    · exact h1
  exact ⟨h2, h1, fun id => by simp only [get_note, h2]⟩

/-- C9: a successful `CreateToken` call returns a token of exactly 8
characters (`str(uuid.uuid4())[:8]`) that is listed for the note
immediately afterwards. -/
theorem claim_C9_token_shape (s s' : DB) (note_id t : String) (now r : Nat)
    (h : create_token_capped s note_id now r = (.ok t, s')) :
    t.length = 8 ∧ t ∈ (get_tokens_for_note s' note_id).map Prod.fst := by
  have e := get_tokens_capped_ok h
  refine ⟨?_, ?_⟩
  · obtain ⟨rfl, -⟩ := create_token_capped_ok h
    exact new_token_length r
  · rw [e]
    simp

theorem claim_C9_token_shape_witness :
    ("00000000" : String).length = 8 ∧
    "00000000" ∈ (get_tokens_for_note dbDemo "n1").map Prod.fst :=
  claim_C9_token_shape (save_note dbInit "n1" "Plan" "Draft v1" 1) dbDemo
    "n1" "00000000" 2 0 (by decide)

/-- C10: orphaned tokens grant no access: when no note record exists for
`note_id`, the viewer rejects with `NoteNotFound` for every presented
token, even one registered for that very `note_id` in the tokens table. -/
theorem claim_C10_orphan_tokens (s : DB) (note_id : String)
    (h : get_note s note_id = none) :
    ∀ p, view_note s note_id p = .error .noteNotFound := by
  intro p
  simp [view_note, h]

theorem claim_C10_orphan_tokens_witness :
    get_tokens_for_note dbOrphan "ghost" = [("00000000", 1)] ∧
    view_note dbOrphan "ghost" (some "00000000") = .error .noteNotFound :=
  ⟨by decide,
   claim_C10_orphan_tokens dbOrphan "ghost" (by decide) (some "00000000")⟩

/-- C2: the viewer's authorization predicate grants access exactly when the
note has zero tokens, or the presented token is a non-empty string listed
for the note — over every database state the application can reach. -/
theorem claim_C2_authorization_iff (s : DB) (note_id : String)
    (p : Option String) (hs : Reachable s) :
    is_authorized s note_id p = true ↔
      (get_tokens_for_note s note_id = [] ∨
        ∃ t, p = some t ∧ t ≠ "" ∧
          t ∈ (get_tokens_for_note s note_id).map Prod.fst) := by
  obtain ⟨htok, -, -, -⟩ := reachable_inv hs
  have hne : ∀ t, t ∈ (get_tokens_for_note s note_id).map Prod.fst →
      t ≠ "" := by
    intro t ht
    simp only [get_tokens_for_note, List.map_map, List.mem_map,
      List.mem_filter, Function.comp] at ht
    obtain ⟨row, ⟨hrow, -⟩, hval⟩ := ht
    have h8 := (htok row hrow).1
    intro h0
    rw [hval, h0] at h8
    simp [String.length] at h8
  simp only [is_authorized, Bool.or_eq_true, List.isEmpty_iff,
    List.map_eq_nil_iff]
  constructor
  · rintro (h | h)
    · exact Or.inl h
    · cases p with
      | none => simp [presented_in] at h
      | some t =>
          simp only [presented_in] at h
          have hmem : t ∈ (get_tokens_for_note s note_id).map Prod.fst := by
            simpa using h
          exact Or.inr ⟨t, rfl, hne t hmem, hmem⟩
  · rintro (h | ⟨t, rfl, -, hmem⟩)
    · exact Or.inl h
    · refine Or.inr ?_
      simpa [presented_in] using hmem

theorem claim_C2_authorization_iff_witness :
    is_authorized dbDemo "n1" (some "00000000") = true ↔
      (get_tokens_for_note dbDemo "n1" = [] ∨
        ∃ t, (some "00000000" : Option String) = some t ∧ t ≠ "" ∧
          t ∈ (get_tokens_for_note dbDemo "n1").map Prod.fst) :=
  claim_C2_authorization_iff dbDemo "n1" (some "00000000") dbDemo_reachable

/-- C3: the viewer rejects with `NoteNotFound` when no note record exists,
rejects with `Unauthorized` when the note exists but the token gate denies
access, and otherwise returns exactly the stored title, content and
updated_at of the note. -/
theorem claim_C3_view_note_cases (s : DB) (note_id : String)
    (p : Option String) :
    (get_note s note_id = none →
      view_note s note_id p = .error .noteNotFound) ∧
    (∀ note, get_note s note_id = some note →
      (is_authorized s note_id p = false →
        view_note s note_id p = .error .unauthorized) ∧
      (is_authorized s note_id p = true →
        view_note s note_id p =
          .ok ⟨note.title, note.content, note.updated_at⟩)) := by
  refine ⟨fun h => by simp [view_note, h], ?_⟩
  intro note h
  constructor
  · intro ha
    simp only [view_note, h]
    rw [view_gate s note_id p, ha]
    rfl
  · intro ha
    simp only [view_note, h]
    rw [view_gate s note_id p, ha]
    rfl

theorem claim_C3_view_note_cases_witness :
    view_note dbInit "n1" none = .error .noteNotFound ∧
    view_note dbDemo "n1" (some "bad") = .error .unauthorized ∧
    view_note dbDemo "n1" (some "00000000") =
      .ok ⟨"Plan", "Draft v1", 1⟩ :=
  ⟨(claim_C3_view_note_cases dbInit "n1" none).1 (by decide),
   ((claim_C3_view_note_cases dbDemo "n1" (some "bad")).2
     ⟨"n1", "Plan", "Draft v1", 1⟩ (by decide)).1 (by decide),
   ((claim_C3_view_note_cases dbDemo "n1" (some "00000000")).2
     ⟨"n1", "Plan", "Draft v1", 1⟩ (by decide)).2 (by decide)⟩

/-- C4: `get_tokens_for_note` returns exactly the (token, created_at)
pairs of the rows belonging to the note, and — in every reachable state —
in ascending order of creation time. -/
theorem claim_C4_list_tokens (s : DB) (note_id : String) (hs : Reachable s) :
    (∀ tok ct, (tok, ct) ∈ get_tokens_for_note s note_id ↔
      (⟨tok, note_id, ct⟩ : TokenRow) ∈ s.tokens) ∧
    (get_tokens_for_note s note_id).Pairwise (fun a b => a.2 ≤ b.2) := by
  obtain ⟨-, -, -, hsorted⟩ := reachable_inv hs
  constructor
  · intro tok ct
    simp only [get_tokens_for_note, List.mem_map, List.mem_filter,
      Prod.mk.injEq, beq_iff_eq]
    constructor
    · rintro ⟨row, ⟨hrow, hnid⟩, htok, hct⟩
      have hrw : row = ⟨tok, note_id, ct⟩ := by
        cases row
        simp_all
      rwa [hrw] at hrow
    · intro h
      exact ⟨⟨tok, note_id, ct⟩, ⟨h, rfl⟩, rfl, rfl⟩
  · exact List.Pairwise.map _ (fun a b hab => hab) (hsorted.filter _)

theorem claim_C4_list_tokens_witness :
    ((("00000000" : String), (2 : Nat)) ∈ get_tokens_for_note dbDemo "n1" ↔
      (⟨"00000000", "n1", 2⟩ : TokenRow) ∈ dbDemo.tokens) ∧
    (get_tokens_for_note dbDemo "n1").Pairwise (fun a b => a.2 ≤ b.2) :=
  ⟨(claim_C4_list_tokens dbDemo "n1" dbDemo_reachable).1 "00000000" 2,
   (claim_C4_list_tokens dbDemo "n1" dbDemo_reachable).2⟩

/-- C5 fails on the code: the viewer's rejection for a missing note
(`NoteNotFound`, rendered "Note not found.") differs from its rejection for
a wrong token on an existing restricted note (`Unauthorized`), so an
unauthorized caller can tell a non-existent note from a wrong token. -/
theorem claim_C5_counterexample :
    view_note dbDemo "missing" (some "00000000") = .error .noteNotFound ∧
    view_note dbDemo "n1" (some "wrong") = .error .unauthorized ∧
    view_note dbDemo "missing" (some "00000000") ≠
      view_note dbDemo "n1" (some "wrong") :=
  ⟨by decide, by decide, by decide⟩

/-- C5 (amended): the two rejection cases of the viewer are distinguishable:
a missing note is rejected with `NoteNotFound` and a wrong token on an
existing restricted note with `Unauthorized`, and the two rejections carry
distinct error messages, so rejections do reveal whether the note exists. -/
theorem claim_C5_distinct_rejections (s : DB) (nidA nidB : String)
    (pA pB : Option String) (note : NoteRow)
    (hA : get_note s nidA = none)
    (hB : get_note s nidB = some note)
    (hauth : is_authorized s nidB pB = false) :
    view_note s nidA pA = .error .noteNotFound ∧
    view_note s nidB pB = .error .unauthorized ∧
    rejection_message .noteNotFound ≠ rejection_message .unauthorized := by
  refine ⟨by simp [view_note, hA], ?_, by decide⟩
  simp only [view_note, hB]
  rw [view_gate s nidB pB, hauth]
  rfl

theorem claim_C5_distinct_rejections_witness :
    view_note dbDemo "missing" none = .error .noteNotFound ∧
    view_note dbDemo "n1" (some "wrong2") = .error .unauthorized ∧
    rejection_message .noteNotFound ≠ rejection_message .unauthorized :=
  claim_C5_distinct_rejections dbDemo "missing" "n1" none (some "wrong2")
    ⟨"n1", "Plan", "Draft v1", 1⟩ (by decide) (by decide) (by decide)

/-- C6: in every reachable state the notes table has at most one row per
id, and a second save with the same id fully replaces title, content and
timestamp — the table afterwards equals the table a single save of the new
values would have produced, and reading back yields only the new values. -/
theorem claim_C6_unique_id_replace :
    (∀ s : DB, Reachable s → s.notes.Pairwise (fun a b => a.id ≠ b.id)) ∧
    (∀ (s : DB) (id : String) (n₁ n₂ : Nat),
      (save_note (save_note s id "A" "x" n₁) id "B" "y" n₂).notes =
        (save_note s id "B" "y" n₂).notes ∧
      get_note (save_note (save_note s id "A" "x" n₁) id "B" "y" n₂) id =
        some ⟨id, "B", "y", n₂⟩) := by
  constructor
  · intro s hs
    exact (reachable_inv hs).2.2.1
  · intro s id n₁ n₂
    refine ⟨?_, get_note_save _ id "B" "y" n₂⟩
    simp only [save_note]
    congr 1
    rw [List.filter_append, List.filter_filter]
    simp

theorem claim_C6_unique_id_replace_witness :
    dbDemo.notes.Pairwise (fun a b => a.id ≠ b.id) ∧
    get_note (save_note (save_note dbInit "k" "A" "x" 1) "k" "B" "y" 2)
      "k" = some ⟨"k", "B", "y", 2⟩ :=
  ⟨claim_C6_unique_id_replace.1 dbDemo dbDemo_reachable,
   (claim_C6_unique_id_replace.2 dbInit "k" 1 2).2⟩

/-- C7: `save_note` followed immediately by `get_note` on the same id
returns exactly the record just written, whose timestamp `now` is at least
the note's previous timestamp (the clock never runs backwards). -/
theorem claim_C7_save_get_roundtrip (s : DB) (id title content : String)
    (now : Nat) (hs : Reachable s) (hnow : s.lastTime ≤ now) :
    get_note (save_note s id title content now) id =
      some ⟨id, title, content, now⟩ ∧
    ∀ old, get_note s id = some old → old.updated_at ≤ now := by
  refine ⟨get_note_save s id title content now, ?_⟩
  intro old hold
  have hold' : s.notes.find? (fun n => n.id == id) = some old := hold
  have hmem := List.mem_of_find?_eq_some hold'
  exact le_trans ((reachable_inv hs).2.1 old hmem) hnow

theorem claim_C7_save_get_roundtrip_witness :
    get_note (save_note dbDemo "n1" "Plan" "Draft v2" 5) "n1" =
      some ⟨"n1", "Plan", "Draft v2", 5⟩ ∧
    (⟨"n1", "Plan", "Draft v1", 1⟩ : NoteRow).updated_at ≤ 5 :=
  ⟨(claim_C7_save_get_roundtrip dbDemo "n1" "Plan" "Draft v2" 5
      dbDemo_reachable (by decide)).1,
   (claim_C7_save_get_roundtrip dbDemo "n1" "Plan" "Draft v2" 5
      dbDemo_reachable (by decide)).2
     ⟨"n1", "Plan", "Draft v1", 1⟩ (by decide)⟩
